import Mathlib

/-!
Shallow embedding of the changelog generator in `.github/workflows/changelog.py`
of the `serpentine` repository, together with theorems settling the claims
about its tag selection, package-group reconciliation, diff engine and
document rendering.

External collaborators (the container-registry inspection, the JSON parsing of
manifest labels, and the git commit-log subprocess) are modelled as data
already fetched: a `Manifest` carries its tag list, its label map and the
already-parsed package map (`none` when parsing failed, in which case the
variant is skipped exactly as in the source).
-/

/-- Association-list lookup, mirroring Python `dict.get(k, None)` /
`k in d` on (insertion-ordered) dicts. -/
def alookup {β : Type} (k : String) : List (String × β) → Option β
  | [] => none
  | (a, b) :: rest => if a = k then some b else alookup k rest

/-- Boolean list membership, mirroring Python `x in s`. -/
def lmem (x : String) : List String → Bool
  | [] => false
  | y :: rest => if y = x then true else lmem x rest

theorem lmem_iff (x : String) (l : List String) : lmem x l = true ↔ x ∈ l := by
  induction l with
  | nil => simp [lmem]
  | cons y rest ih =>
    by_cases h : y = x
    · subst h; simp [lmem]
    · simp [lmem, h, ih]
      intro hx
      exact absurd hx.symm h

theorem alookup_isSome_iff {β : Type} (k : String) (l : List (String × β)) :
    (alookup k l).isSome = true ↔ k ∈ l.map Prod.fst := by
  induction l with
  | nil => simp [alookup]
  | cons p rest ih =>
    by_cases h : p.1 = k
    · simp [alookup, h]
    · simp only [alookup]
      rw [if_neg h]
      simp only [List.map_cons, List.mem_cons, ih]
      constructor
      · exact Or.inr
      · rintro (hk | hk)
        · exact absurd hk.symm h
        · exact hk

/-- Lexicographic comparison of character lists by Unicode code point,
mirroring Python's string `<=`. -/
def charlist_le : List Char → List Char → Bool
  | [], _ => true
  | _ :: _, [] => false
  | a :: as, b :: bs =>
    if a.toNat < b.toNat then true
    else if b.toNat < a.toNat then false
    else charlist_le as bs

/-- Python's string comparison `a <= b` (lexicographic by code point). -/
def str_le (a b : String) : Bool := charlist_le a.data b.data

/-- `str_le` as a relation, used for sorting. -/
def str_le_r (a b : String) : Prop := str_le a b = true

instance str_le_r_dec : DecidableRel str_le_r := fun a b =>
  inferInstanceAs (Decidable (str_le a b = true))

theorem charlist_le_total (a b : List Char) :
    charlist_le a b = true ∨ charlist_le b a = true := by
  induction a generalizing b with
  | nil => left; rfl
  | cons x xs ih =>
    cases b with
    | nil => right; rfl
    | cons y ys =>
      rcases Nat.lt_trichotomy x.toNat y.toNat with h | h | h
      · left; simp [charlist_le, h]
      · have h1 : ¬ x.toNat < y.toNat := by omega
        have h2 : ¬ y.toNat < x.toNat := by omega
        rcases ih ys with hc | hc
        · left; simp [charlist_le, h1, h2, hc]
        · right; simp [charlist_le, h1, h2, hc]
      · right; simp [charlist_le, h]

theorem charlist_le_cons {x y : Char} {xs ys : List Char} :
    charlist_le (x :: xs) (y :: ys) = true ↔
      (x.toNat < y.toNat ∨ (x.toNat = y.toNat ∧ charlist_le xs ys = true)) := by
  by_cases h1 : x.toNat < y.toNat
  · simp [charlist_le, h1]
  · by_cases h2 : y.toNat < x.toNat
    · simp [charlist_le, h1, h2]
      omega
    · have hxy : x.toNat = y.toNat := by omega
      simp [charlist_le, h1, h2, hxy]

theorem charlist_le_trans (a b c : List Char)
    (hab : charlist_le a b = true) (hbc : charlist_le b c = true) :
    charlist_le a c = true := by
  induction a generalizing b c with
  | nil => rfl
  | cons x xs ih =>
    cases b with
    | nil => simp [charlist_le] at hab
    | cons y ys =>
      cases c with
      | nil => simp [charlist_le] at hbc
      | cons z zs =>
        rw [charlist_le_cons] at hab hbc ⊢
        rcases hab with hab | ⟨hab1, hab2⟩
        · rcases hbc with hbc | ⟨hbc1, hbc2⟩
          · left; omega
          · left; omega
        · rcases hbc with hbc | ⟨hbc1, hbc2⟩
          · left; omega
          · right
            exact ⟨by omega, ih ys zs hab2 hbc2⟩

instance str_le_r_total : IsTotal String str_le_r :=
  ⟨fun a b => charlist_le_total a.data b.data⟩

instance str_le_r_trans : IsTrans String str_le_r :=
  ⟨fun a b c => charlist_le_trans a.data b.data c.data⟩

/-- Python `sorted` on a set of strings: deduplicate and sort
lexicographically by code point. -/
def py_sorted (l : List String) : List String :=
  l.dedup.insertionSort str_le_r

/-- A registry manifest, as consumed by the changelog generator: its repo tag
list, its label map, and the result of parsing the
`dev.hhd.rechunk.info` label's `packages` entry (`none` = parse failure). -/
structure Manifest where
  RepoTags : List String
  Labels : List (String × String)
  packages : Option (List (String × String))
deriving DecidableEq

/-- `tag.endswith(".0")` -/
def ends_dot_zero (t : String) : Bool :=
  match t.data.reverse with
  | '0' :: '.' :: _ => true
  | _ => false

/-- `re.match(STABLE_START_PATTERN, tag)` where
`STABLE_START_PATTERN = re.compile(r"\d\d\.\d")`: the tag starts with two
digits, a dot and a digit. -/
def stable_match (t : String) : Bool :=
  match t.data with
  | a :: b :: c :: d :: _ => a.isDigit && b.isDigit && c == '.' && d.isDigit
  | _ => false

/-- `re.match(OTHER_START_PATTERN(target), tag)` where the pattern is
`rf"{target}-\d\d\.\d"` (the target text taken literally): the tag starts
with the target, a dash, two digits, a dot and a digit. -/
def other_match (target t : String) : Bool :=
  List.isPrefixOf (target.data ++ ['-']) t.data &&
  stable_match (String.mk (t.data.drop (target.data.length + 1)))

/-- One tag of the first manifest survives `get_tags` filtering: it does not
end in `.0`, it matches the channel pattern, and it is present in every
variant's `RepoTags` (the source first collects pattern matches from the
first manifest, then removes tags absent from any manifest; composed here
into one filter over the first manifest's tags). -/
def tag_qualifies (target : String) (manifests : List (String × Manifest)) (t : String) : Bool :=
  !(ends_dot_zero t)
  && (if target = "stable" then stable_match t else other_match target t)
  && manifests.all (fun m => lmem t m.2.RepoTags)

/-- The sorted list `tags = list(sorted(tags))` computed by `get_tags`:
qualifying tags of the first manifest, deduplicated (Python builds a `set`)
and sorted by Python's lexicographic string order. -/
def qualifying_tags (target : String) (manifests : List (String × Manifest)) : List String :=
  match manifests with
  | [] => []
  | (_, first) :: _ =>
    py_sorted (first.RepoTags.filter (tag_qualifies target manifests))

/-- `get_tags(target, manifests)`: returns `(tags[-2], tags[-1])` of the
sorted qualifying tags, or `none` where the Python raises (the
`assert len(tags) >= 2` failure, or `StopIteration` on an empty manifest
collection, whose `qualifying_tags` is empty). -/
def get_tags (target : String) (manifests : List (String × Manifest)) : Option (String × String) :=
  let tags := qualifying_tags target manifests
  if h : 2 ≤ tags.length then
    some (tags.get ⟨tags.length - 2, by omega⟩, tags.get ⟨tags.length - 1, by omega⟩)
  else none

example :
    get_tags "stable"
      [("serpentine", ⟨["23.9", "23.10", "23.10.0"], [], none⟩),
       ("serpentine-nvidia", ⟨["23.9", "23.10", "23.10.0"], [], none⟩)]
      = some ("23.10", "23.9") := by decide

/-- `BLACKLIST_VERSIONS`: the anchor ("major") packages whose version churn
is suppressed from the generic diff. -/
def BLACKLIST_VERSIONS : List String :=
  ["kernel", "mesa-filesystem", "gamescope", "plasma-desktop", "atheros-firmware"]

/-- Boolean membership in a list of optional strings, mirroring Python
`v in blacklist_ver` where the set holds `str | None` values. -/
def omem (x : Option String) : List (Option String) → Bool
  | [] => false
  | y :: rest => if y = x then true else omem x rest

theorem omem_iff (x : Option String) (l : List (Option String)) :
    omem x l = true ↔ x ∈ l := by
  induction l with
  | nil => simp [omem]
  | cons y rest ih =>
    by_cases h : y = x
    · subst h; simp [omem]
    · simp [omem, h, ih]
      intro hx
      exact absurd hx.symm h

/-- The loop state of `calculate_changes`: the three classification lists and
the running `blacklist_ver` suppressed-version set. -/
structure CalcState where
  added : List String
  changed : List String
  removed : List String
  blacklist : List (Option String)
deriving DecidableEq

/-- `blacklist_ver = set([curr.get(v, None) for v in BLACKLIST_VERSIONS])`:
the seed of the suppressed-version set (membership-equivalent list form). -/
def calc_seed (curr : List (String × String)) : List (Option String) :=
  BLACKLIST_VERSIONS.map (fun v => alookup v curr)

/-- One iteration of the `for pkg in pkgs` loop of `calculate_changes`:
skip anchors and suppressed versions, classify into added / removed /
changed, then unconditionally extend the suppressed-version set with the
package's current and previous versions. -/
def calc_step (prev curr : List (String × String)) (s : CalcState) (pkg : String) : CalcState :=
  if lmem pkg BLACKLIST_VERSIONS then s
  else if (alookup pkg curr).isSome && omem (alookup pkg curr) s.blacklist then s
  else if (alookup pkg prev).isSome && omem (alookup pkg prev) s.blacklist then s
  else
    let s1 :=
      if (alookup pkg prev).isNone then
        { s with added := s.added ++ [pkg] }
      else if (alookup pkg curr).isNone then
        { s with removed := s.removed ++ [pkg] }
      else if alookup pkg prev ≠ alookup pkg curr then
        { s with changed := s.changed ++ [pkg] }
      else s
    { s1 with blacklist := s1.blacklist ++ [alookup pkg curr, alookup pkg prev] }

/-- The classification loop of `calculate_changes`, iterated over the
package universe. -/
def calc_fold (prev curr : List (String × String)) : List String → CalcState → CalcState
  | [], s => s
  | pkg :: rest, s => calc_fold prev curr rest (calc_step prev curr s pkg)

/-- The final loop state of `calculate_changes(pkgs, prev, curr)`. -/
def calculate_changes_state (pkgs : List String) (prev curr : List (String × String)) :
    CalcState :=
  calc_fold prev curr pkgs ⟨[], [], [], calc_seed curr⟩

/-- `PATTERN_ADD.format(name=pkg, version=...)` -/
def PATTERN_ADD (name version : String) : String :=
  "\n| ✨ | " ++ name ++ " | | " ++ version ++ " |"

/-- `PATTERN_CHANGE.format(name=pkg, prev=..., new=...)` -/
def PATTERN_CHANGE (name prevv newv : String) : String :=
  "\n| 🔄 | " ++ name ++ " | " ++ prevv ++ " | " ++ newv ++ " |"

/-- `PATTERN_REMOVE.format(name=pkg, version=...)` -/
def PATTERN_REMOVE (name version : String) : String :=
  "\n| ❌ | " ++ name ++ " | " ++ version ++ " | |"

/-- The `for pkg in added` formatting loop; `curr[pkg]` raises `KeyError`
(modelled as `none`) when the package is absent from the current map. -/
def fmt_added (curr : List (String × String)) : List String → Option String
  | [] => some ""
  | pkg :: rest =>
    match alookup pkg curr with
    | none => none
    | some v =>
      match fmt_added curr rest with
      | none => none
      | some out => some (PATTERN_ADD pkg v ++ out)

/-- The `for pkg in changed` formatting loop (`prev[pkg]` / `curr[pkg]`). -/
def fmt_changed (prev curr : List (String × String)) : List String → Option String
  | [] => some ""
  | pkg :: rest =>
    match alookup pkg prev, alookup pkg curr with
    | some pv, some cv =>
      match fmt_changed prev curr rest with
      | none => none
      | some out => some (PATTERN_CHANGE pkg pv cv ++ out)
    | _, _ => none

/-- The `for pkg in removed` formatting loop (`prev[pkg]`). -/
def fmt_removed (prev : List (String × String)) : List String → Option String
  | [] => some ""
  | pkg :: rest =>
    match alookup pkg prev with
    | none => none
    | some v =>
      match fmt_removed prev rest with
      | none => none
      | some out => some (PATTERN_REMOVE pkg v ++ out)

/-- `calculate_changes(pkgs, prev, curr)`: classify every universe package,
then emit all added rows, then all changed rows, then all removed rows.
`none` models an uncaught `KeyError` during row formatting. -/
def calculate_changes (pkgs : List String) (prev curr : List (String × String)) :
    Option String :=
  let s := calculate_changes_state pkgs prev curr
  match fmt_added curr s.added, fmt_changed prev curr s.changed, fmt_removed prev s.removed with
  | some a, some c, some r => some (a ++ c ++ r)
  | _, _, _ => none

theorem omem_append_left {x : Option String} {l l' : List (Option String)}
    (h : omem x l = true) : omem x (l ++ l') = true := by
  rw [omem_iff] at h ⊢
  exact List.mem_append_left l' h

theorem added_calc_step {prev curr : List (String × String)} {s : CalcState}
    {pkg p : String} (h : p ∈ (calc_step prev curr s pkg).added) :
    p ∈ s.added ∨ (p = pkg ∧ alookup p prev = none) := by
  unfold calc_step at h
  split_ifs at h with h1 h2 h3 h4 h5 h6
  · exact Or.inl h
  · exact Or.inl h
  · exact Or.inl h
  · simp at h
    rcases h with h | h
    · exact Or.inl h
    · subst h
      exact Or.inr ⟨rfl, Option.isNone_iff_eq_none.mp h4⟩
  · simp at h; exact Or.inl h
  · simp at h; exact Or.inl h
  · simp at h; exact Or.inl h

theorem changed_calc_step {prev curr : List (String × String)} {s : CalcState}
    {pkg p : String} (h : p ∈ (calc_step prev curr s pkg).changed) :
    p ∈ s.changed ∨
      (p = pkg ∧ (alookup p prev).isSome = true ∧ (alookup p curr).isSome = true ∧
        alookup p prev ≠ alookup p curr) := by
  unfold calc_step at h
  split_ifs at h with h1 h2 h3 h4 h5 h6
  · exact Or.inl h
  · exact Or.inl h
  · exact Or.inl h
  · simp at h; exact Or.inl h
  · simp at h; exact Or.inl h
  · simp at h
    rcases h with h | h
    · exact Or.inl h
    · subst h
      refine Or.inr ⟨rfl, ?_, ?_, h6⟩
      · simpa [Option.isSome_iff_ne_none, Option.isNone_iff_eq_none] using h4
      · simpa [Option.isSome_iff_ne_none, Option.isNone_iff_eq_none] using h5
  · simp at h; exact Or.inl h

theorem removed_calc_step {prev curr : List (String × String)} {s : CalcState}
    {pkg p : String} (h : p ∈ (calc_step prev curr s pkg).removed) :
    p ∈ s.removed ∨
      (p = pkg ∧ (alookup p prev).isSome = true ∧ alookup p curr = none) := by
  unfold calc_step at h
  split_ifs at h with h1 h2 h3 h4 h5 h6
  · exact Or.inl h
  · exact Or.inl h
  · exact Or.inl h
  · simp at h; exact Or.inl h
  · simp at h
    rcases h with h | h
    · exact Or.inl h
    · subst h
      refine Or.inr ⟨rfl, ?_, Option.isNone_iff_eq_none.mp h5⟩
      simpa [Option.isSome_iff_ne_none, Option.isNone_iff_eq_none] using h4
  · simp at h; exact Or.inl h
  · simp at h; exact Or.inl h

theorem added_calc_fold {prev curr : List (String × String)} :
    ∀ (l : List String) (s : CalcState) (p : String),
      p ∈ (calc_fold prev curr l s).added →
      p ∈ s.added ∨ (p ∈ l ∧ alookup p prev = none) := by
  intro l
  induction l with
  | nil => intro s p h; exact Or.inl h
  | cons pkg rest ih =>
    intro s p h
    rcases ih _ p h with h2 | ⟨hmem, hcl⟩
    · rcases added_calc_step h2 with h3 | ⟨rfl, hcl⟩
      · exact Or.inl h3
      · exact Or.inr ⟨List.mem_cons_self _ _, hcl⟩
    · exact Or.inr ⟨List.mem_cons_of_mem _ hmem, hcl⟩

theorem changed_calc_fold {prev curr : List (String × String)} :
    ∀ (l : List String) (s : CalcState) (p : String),
      p ∈ (calc_fold prev curr l s).changed →
      p ∈ s.changed ∨
        (p ∈ l ∧ (alookup p prev).isSome = true ∧ (alookup p curr).isSome = true ∧
          alookup p prev ≠ alookup p curr) := by
  intro l
  induction l with
  | nil => intro s p h; exact Or.inl h
  | cons pkg rest ih =>
    intro s p h
    rcases ih _ p h with h2 | ⟨hmem, hcl⟩
    · rcases changed_calc_step h2 with h3 | ⟨rfl, hcl⟩
      · exact Or.inl h3
      · exact Or.inr ⟨List.mem_cons_self _ _, hcl⟩
    · exact Or.inr ⟨List.mem_cons_of_mem _ hmem, hcl⟩

theorem removed_calc_fold {prev curr : List (String × String)} :
    ∀ (l : List String) (s : CalcState) (p : String),
      p ∈ (calc_fold prev curr l s).removed →
      p ∈ s.removed ∨
        (p ∈ l ∧ (alookup p prev).isSome = true ∧ alookup p curr = none) := by
  intro l
  induction l with
  | nil => intro s p h; exact Or.inl h
  | cons pkg rest ih =>
    intro s p h
    rcases ih _ p h with h2 | ⟨hmem, hcl⟩
    · rcases removed_calc_step h2 with h3 | ⟨rfl, hcl⟩
      · exact Or.inl h3
      · exact Or.inr ⟨List.mem_cons_self _ _, hcl⟩
    · exact Or.inr ⟨List.mem_cons_of_mem _ hmem, hcl⟩

theorem blacklist_calc_step {prev curr : List (String × String)} {s : CalcState}
    {pkg : String} {x : Option String} (h : omem x s.blacklist = true) :
    omem x (calc_step prev curr s pkg).blacklist = true := by
  unfold calc_step
  split_ifs with h1 h2 h3 h4 h5 h6
  · exact h
  · exact h
  · exact h
  all_goals exact omem_append_left h

theorem suppressed_calc_fold {prev curr : List (String × String)} :
    ∀ (l : List String) (s : CalcState) (p : String),
      omem (alookup p curr) s.blacklist = true →
      (alookup p curr).isSome = true →
      (p ∉ s.added → p ∉ (calc_fold prev curr l s).added) ∧
      (p ∉ s.changed → p ∉ (calc_fold prev curr l s).changed) ∧
      (p ∉ s.removed → p ∉ (calc_fold prev curr l s).removed) := by
  intro l
  induction l with
  | nil =>
    intro s p hbl hsome
    exact ⟨fun h => h, fun h => h, fun h => h⟩
  | cons pkg rest ih =>
    intro s p hbl hsome
    by_cases hpq : pkg = p
    · subst hpq
      have hstep : calc_step prev curr s pkg = s := by
        unfold calc_step
        by_cases ha : lmem pkg BLACKLIST_VERSIONS = true
        · simp [ha]
        · simp [ha, hsome, hbl]
      simp only [calc_fold, hstep]
      exact ih s pkg hbl hsome
    · have hbl2 : omem (alookup p curr) (calc_step prev curr s pkg).blacklist = true :=
        blacklist_calc_step hbl
      have ih2 := ih (calc_step prev curr s pkg) p hbl2 hsome
      simp only [calc_fold]
      refine ⟨?_, ?_, ?_⟩
      · intro hna
        refine ih2.1 ?_
        intro hc
        rcases added_calc_step hc with hc | ⟨hc, _⟩
        · exact hna hc
        · exact hpq hc.symm
      · intro hna
        refine ih2.2.1 ?_
        intro hc
        rcases changed_calc_step hc with hc | ⟨hc, _⟩
        · exact hna hc
        · exact hpq hc.symm
      · intro hna
        refine ih2.2.2 ?_
        intro hc
        rcases removed_calc_step hc with hc | ⟨hc, _⟩
        · exact hna hc
        · exact hpq hc.symm

theorem mem_calc_seed {curr : List (String × String)} {a : String}
    (h : a ∈ BLACKLIST_VERSIONS) : alookup a curr ∈ calc_seed curr :=
  List.mem_map_of_mem _ h

example :
    (calculate_changes_state ["foo", "kernel", "bar"]
      [("foo", "1.0"), ("kernel", "6.1")]
      [("foo", "1.1"), ("kernel", "6.2"), ("bar", "2.0")]).added = ["bar"] := by decide

/-- **C2** Diff Engine partition: every universe name lands in exactly one of
the four outcomes (the three lists are pairwise disjoint and everything else
is not reported); `added ∪ changed ∪ removed ⊆ U`; a reported name absent
from the previous map is in `added`, a reported name present in the previous
map and absent from the current map is in `removed`, a reported name present
in both with differing version strings is in `changed`; and a package whose
current-version string equals the current version of an anchor
(`BLACKLIST_VERSIONS`) package is never reported in any of the three lists. -/
theorem diff_engine_partition (U : List String) (prev curr : List (String × String)) :
    (∀ p ∈ (calculate_changes_state U prev curr).added,
        p ∈ U ∧ alookup p prev = none) ∧
    (∀ p ∈ (calculate_changes_state U prev curr).changed,
        p ∈ U ∧ (alookup p prev).isSome = true ∧ (alookup p curr).isSome = true ∧
          alookup p prev ≠ alookup p curr) ∧
    (∀ p ∈ (calculate_changes_state U prev curr).removed,
        p ∈ U ∧ (alookup p prev).isSome = true ∧ alookup p curr = none) ∧
    (∀ p : String,
        ¬(p ∈ (calculate_changes_state U prev curr).added ∧
          p ∈ (calculate_changes_state U prev curr).changed) ∧
        ¬(p ∈ (calculate_changes_state U prev curr).added ∧
          p ∈ (calculate_changes_state U prev curr).removed) ∧
        ¬(p ∈ (calculate_changes_state U prev curr).changed ∧
          p ∈ (calculate_changes_state U prev curr).removed)) ∧
    (∀ p : String,
        (p ∈ (calculate_changes_state U prev curr).added ∨
         p ∈ (calculate_changes_state U prev curr).changed ∨
         p ∈ (calculate_changes_state U prev curr).removed) →
        alookup p prev = none →
        p ∈ (calculate_changes_state U prev curr).added) ∧
    (∀ p : String,
        (p ∈ (calculate_changes_state U prev curr).added ∨
         p ∈ (calculate_changes_state U prev curr).changed ∨
         p ∈ (calculate_changes_state U prev curr).removed) →
        (alookup p prev).isSome = true → alookup p curr = none →
        p ∈ (calculate_changes_state U prev curr).removed) ∧
    (∀ a p : String, a ∈ BLACKLIST_VERSIONS →
        (alookup p curr).isSome = true →
        alookup p curr = alookup a curr →
        p ∉ (calculate_changes_state U prev curr).added ∧
        p ∉ (calculate_changes_state U prev curr).changed ∧
        p ∉ (calculate_changes_state U prev curr).removed) := by
  have hadd : ∀ p ∈ (calculate_changes_state U prev curr).added,
      p ∈ U ∧ alookup p prev = none := by
    intro p hp
    rcases added_calc_fold U _ p hp with h | ⟨hU, hcl⟩
    · simp at h
    · exact ⟨hU, hcl⟩
  have hchg : ∀ p ∈ (calculate_changes_state U prev curr).changed,
      p ∈ U ∧ (alookup p prev).isSome = true ∧ (alookup p curr).isSome = true ∧
        alookup p prev ≠ alookup p curr := by
    intro p hp
    rcases changed_calc_fold U _ p hp with h | ⟨hU, hcl⟩
    · simp at h
    · exact ⟨hU, hcl⟩
  have hrem : ∀ p ∈ (calculate_changes_state U prev curr).removed,
      p ∈ U ∧ (alookup p prev).isSome = true ∧ alookup p curr = none := by
    intro p hp
    rcases removed_calc_fold U _ p hp with h | ⟨hU, hcl⟩
    · simp at h
    · exact ⟨hU, hcl⟩
  refine ⟨hadd, hchg, hrem, ?_, ?_, ?_, ?_⟩
  · intro p
    refine ⟨?_, ?_, ?_⟩
    · rintro ⟨h1, h2⟩
      have e1 := (hadd p h1).2
      have e2 := (hchg p h2).2.1
      rw [e1] at e2
      simp at e2
    · rintro ⟨h1, h2⟩
      have e1 := (hadd p h1).2
      have e2 := (hrem p h2).2.1
      rw [e1] at e2
      simp at e2
    · rintro ⟨h1, h2⟩
      have e1 := (hchg p h1).2.2.1
      have e2 := (hrem p h2).2.2
      rw [e2] at e1
      simp at e1
  · rintro p (h | h | h) hnone
    · exact h
    · have e := (hchg p h).2.1
      rw [hnone] at e
      simp at e
    · have e := (hrem p h).2.1
      rw [hnone] at e
      simp at e
  · rintro p (h | h | h) hsome hnone
    · have e := (hadd p h).2
      rw [e] at hsome
      simp at hsome
    · have e := (hchg p h).2.2.1
      rw [hnone] at e
      simp at e
    · exact h
  · intro a p ha hsome heq
    have hbl : omem (alookup p curr) (calc_seed curr) = true := by
      rw [omem_iff, heq]
      exact mem_calc_seed ha
    have h := @suppressed_calc_fold prev curr U
      ⟨[], [], [], calc_seed curr⟩ p hbl hsome
    exact ⟨h.1 (by simp), h.2.1 (by simp), h.2.2 (by simp)⟩

/-- Witness for `diff_engine_partition`: in the concrete scenario with the
anchor `kernel` at current version `6.2`, the package `pipewire`, sharing
that current version, is never reported. -/
theorem diff_engine_partition_witness :
    "pipewire" ∉ (calculate_changes_state ["foo", "kernel", "bar", "pipewire"]
      [("foo", "1.0"), ("kernel", "6.1")]
      [("foo", "1.1"), ("kernel", "6.2"), ("bar", "2.0"), ("pipewire", "6.2")]).added := by
  have h := diff_engine_partition ["foo", "kernel", "bar", "pipewire"]
    [("foo", "1.0"), ("kernel", "6.1")]
    [("foo", "1.1"), ("kernel", "6.2"), ("bar", "2.0"), ("pipewire", "6.2")]
  exact (h.2.2.2.2.2.2 "kernel" "pipewire" (by decide) (by decide) (by decide)).1

example :
    (calculate_changes_state ["ghost"] [] []).added = ["ghost"] := by decide

example : calculate_changes ["ghost"] [] [] = none := by decide

theorem fmt_added_isSome {curr : List (String × String)} :
    ∀ l : List String, (∀ p ∈ l, (alookup p curr).isSome = true) →
      (fmt_added curr l).isSome = true := by
  intro l
  induction l with
  | nil => intro _; rfl
  | cons pkg rest ih =>
    intro h
    rcases Option.isSome_iff_exists.mp (h pkg (List.mem_cons_self _ _)) with ⟨v, hv⟩
    rcases Option.isSome_iff_exists.mp
      (ih (fun p hp => h p (List.mem_cons_of_mem _ hp))) with ⟨out, hout⟩
    simp [fmt_added, hv, hout]

theorem fmt_changed_isSome {prev curr : List (String × String)} :
    ∀ l : List String,
      (∀ p ∈ l, (alookup p prev).isSome = true ∧ (alookup p curr).isSome = true) →
      (fmt_changed prev curr l).isSome = true := by
  intro l
  induction l with
  | nil => intro _; rfl
  | cons pkg rest ih =>
    intro h
    rcases Option.isSome_iff_exists.mp (h pkg (List.mem_cons_self _ _)).1 with ⟨pv, hpv⟩
    rcases Option.isSome_iff_exists.mp (h pkg (List.mem_cons_self _ _)).2 with ⟨cv, hcv⟩
    rcases Option.isSome_iff_exists.mp
      (ih (fun p hp => h p (List.mem_cons_of_mem _ hp))) with ⟨out, hout⟩
    simp [fmt_changed, hpv, hcv, hout]

theorem fmt_removed_isSome {prev : List (String × String)} :
    ∀ l : List String, (∀ p ∈ l, (alookup p prev).isSome = true) →
      (fmt_removed prev l).isSome = true := by
  intro l
  induction l with
  | nil => intro _; rfl
  | cons pkg rest ih =>
    intro h
    rcases Option.isSome_iff_exists.mp (h pkg (List.mem_cons_self _ _)) with ⟨v, hv⟩
    rcases Option.isSome_iff_exists.mp
      (ih (fun p hp => h p (List.mem_cons_of_mem _ hp))) with ⟨out, hout⟩
    simp [fmt_removed, hv, hout]

/-- **C1 counterexample** For the stable channel with every variant carrying
tags `23.9`, `23.10` and `23.10.0`, `get_tags` does exclude `23.10.0`, but
plain lexicographic sorting places `23.10` before `23.9`, so the returned
pair is `("23.10", "23.9")`, not the claimed `("23.9", "23.10")`. -/
theorem tag_selector_pair_counterexample :
    get_tags "stable"
      [("serpentine", ⟨["23.9", "23.10", "23.10.0"], [], none⟩),
       ("serpentine-nvidia", ⟨["23.9", "23.10", "23.10.0"], [], none⟩)]
      = some ("23.10", "23.9") ∧
    get_tags "stable"
      [("serpentine", ⟨["23.9", "23.10", "23.10.0"], [], none⟩),
       ("serpentine-nvidia", ⟨["23.9", "23.10", "23.10.0"], [], none⟩)]
      ≠ some ("23.9", "23.10") := by decide

/-- **C1 (amended)** Tag Selector ordering on the stable channel: with every
variant's manifest carrying `23.9`, `23.10` and `23.10.0`, the tag `23.10.0`
is excluded by the `.0`-suffix rule, and the remaining tags are sorted in
plain lexicographic string order (`"23.10" < "23.9"` by code point), so the
returned `(previous, current)` pair is `("23.10", "23.9")`. -/
theorem tag_selector_pair_amended :
    qualifying_tags "stable"
      [("serpentine", ⟨["23.9", "23.10", "23.10.0"], [], none⟩),
       ("serpentine-nvidia", ⟨["23.9", "23.10", "23.10.0"], [], none⟩)]
      = ["23.10", "23.9"] ∧
    get_tags "stable"
      [("serpentine", ⟨["23.9", "23.10", "23.10.0"], [], none⟩),
       ("serpentine-nvidia", ⟨["23.9", "23.10", "23.10.0"], [], none⟩)]
      = some ("23.10", "23.9") := by decide

/-- **C3** Diff Engine scenario: with the hardwired anchor list (containing
`kernel`), previous versions `foo=1.0, kernel=6.1` and current versions
`foo=1.1, kernel=6.2, bar=2.0` over the universe `[foo, kernel, bar]`, the
engine reports `added = [bar]`, `changed = [foo]`, `removed = []` (`kernel`
excluded as an anchor), and the post-classification suppressed-version set
is the anchor seed extended with foo's and bar's versions only — no further
package was suppressed since their versions differ from kernel's. -/
theorem diff_engine_scenario :
    (calculate_changes_state ["foo", "kernel", "bar"]
      [("foo", "1.0"), ("kernel", "6.1")]
      [("foo", "1.1"), ("kernel", "6.2"), ("bar", "2.0")]).added = ["bar"] ∧
    (calculate_changes_state ["foo", "kernel", "bar"]
      [("foo", "1.0"), ("kernel", "6.1")]
      [("foo", "1.1"), ("kernel", "6.2"), ("bar", "2.0")]).changed = ["foo"] ∧
    (calculate_changes_state ["foo", "kernel", "bar"]
      [("foo", "1.0"), ("kernel", "6.1")]
      [("foo", "1.1"), ("kernel", "6.2"), ("bar", "2.0")]).removed = [] ∧
    (calculate_changes_state ["foo", "kernel", "bar"]
      [("foo", "1.0"), ("kernel", "6.1")]
      [("foo", "1.1"), ("kernel", "6.2"), ("bar", "2.0")]).blacklist =
      calc_seed [("foo", "1.1"), ("kernel", "6.2"), ("bar", "2.0")] ++
        [some "1.1", some "1.0", some "2.0", none] := by decide

/-- **C4** Diff Engine output ordering: whenever the three formatting passes
succeed, the text of `calculate_changes` is all added rows, then all changed
rows, then all removed rows — three grouped passes; and concretely, for the
universe `[a, b, c]` with `a` new, `b` changed and `c` removed, the output
lists the `a` row, then the `b` row, then the `c` row, and the same grouped
text results even when the universe is given in the order `[c, b, a]`. -/
theorem diff_engine_output_ordering :
    (∀ (pkgs : List String) (prev curr : List (String × String)) (A C R : String),
      fmt_added curr (calculate_changes_state pkgs prev curr).added = some A →
      fmt_changed prev curr (calculate_changes_state pkgs prev curr).changed = some C →
      fmt_removed prev (calculate_changes_state pkgs prev curr).removed = some R →
      calculate_changes pkgs prev curr = some (A ++ C ++ R)) ∧
    calculate_changes ["a", "b", "c"] [("b", "1.0"), ("c", "7")] [("a", "3"), ("b", "2.0")]
      = some (PATTERN_ADD "a" "3" ++ PATTERN_CHANGE "b" "1.0" "2.0" ++
          PATTERN_REMOVE "c" "7") ∧
    calculate_changes ["c", "b", "a"] [("b", "1.0"), ("c", "7")] [("a", "3"), ("b", "2.0")]
      = some (PATTERN_ADD "a" "3" ++ PATTERN_CHANGE "b" "1.0" "2.0" ++
          PATTERN_REMOVE "c" "7") := by
  refine ⟨?_, by decide, by decide⟩
  intro pkgs prev curr A C R hA hC hR
  simp [calculate_changes, hA, hC, hR]

/-- Witness for `diff_engine_output_ordering`: its grouping clause applied to
the concrete `[a, b, c]` scenario. -/
theorem diff_engine_output_ordering_witness :
    calculate_changes ["a", "b", "c"] [("b", "1.0"), ("c", "7")] [("a", "3"), ("b", "2.0")]
      = some ("\n| ✨ | a | | 3 |" ++ "\n| 🔄 | b | 1.0 | 2.0 |" ++ "\n| ❌ | c | 7 | |") :=
  diff_engine_output_ordering.1 ["a", "b", "c"] [("b", "1.0"), ("c", "7")]
    [("a", "3"), ("b", "2.0")] "\n| ✨ | a | | 3 |" "\n| 🔄 | b | 1.0 | 2.0 |"
    "\n| ❌ | c | 7 | |" (by decide) (by decide) (by decide)

/-- **C7** Tag-selection failure is fatal: `get_tags` returns `none` (the
Python `assert`, or `StopIteration` on an empty collection, aborts the run)
exactly when fewer than two tags qualify, and returns a pair whenever two or
more tags qualify. -/
theorem tag_selection_failure_fatal (target : String) (manifests : List (String × Manifest)) :
    (get_tags target manifests = none ↔ (qualifying_tags target manifests).length < 2) ∧
    (2 ≤ (qualifying_tags target manifests).length →
      (get_tags target manifests).isSome = true) := by
  by_cases h : 2 ≤ (qualifying_tags target manifests).length
  · constructor
    · simp only [get_tags, dif_pos h]
      constructor
      · intro hc; exact absurd hc (by simp)
      · intro hc; omega
    · intro _
      simp [get_tags, dif_pos h]
  · constructor
    · simp only [get_tags, dif_neg h]
      constructor
      · intro _; omega
      · intro _; trivial
    · intro h2; exact absurd h2 h

/-- Witness for `tag_selection_failure_fatal`: with two qualifying tags the
selector returns a pair. -/
theorem tag_selection_failure_fatal_witness :
    (get_tags "stable" [("serpentine", ⟨["23.9", "23.10"], [], none⟩)]).isSome = true :=
  (tag_selection_failure_fatal "stable"
    [("serpentine", ⟨["23.9", "23.10"], [], none⟩)]).2 (by decide)

/-- **C8** Implicit partiality of the Diff Engine: formatting succeeds
whenever every universe name that ends up reported occurs in the previous or
current map, and a universe name absent from both maps — here `ghost`,
triggering no suppression — is classified `added` by the loop, after which
the `curr[pkg]` row-formatting lookup fails (modelled by `none`) instead of
the name being treated as not-reported. -/
theorem diff_engine_partiality :
    (∀ (U : List String) (prev curr : List (String × String)),
      (∀ p ∈ U, (alookup p prev).isSome = true ∨ (alookup p curr).isSome = true ∨
        (p ∉ (calculate_changes_state U prev curr).added ∧
         p ∉ (calculate_changes_state U prev curr).changed ∧
         p ∉ (calculate_changes_state U prev curr).removed)) →
      (calculate_changes U prev curr).isSome = true) ∧
    (calculate_changes_state ["ghost"] [] []).added = ["ghost"] ∧
    calculate_changes ["ghost"] [] [] = none := by
  refine ⟨?_, by decide, by decide⟩
  intro U prev curr hdom
  have hA : (fmt_added curr (calculate_changes_state U prev curr).added).isSome = true := by
    apply fmt_added_isSome
    intro p hp
    rcases added_calc_fold U _ p hp with h0 | ⟨hU, hnone⟩
    · simp at h0
    · rcases hdom p hU with h | h | h
      · rw [hnone] at h; simp at h
      · exact h
      · exact absurd hp h.1
  have hC : (fmt_changed prev curr (calculate_changes_state U prev curr).changed).isSome
      = true := by
    apply fmt_changed_isSome
    intro p hp
    rcases changed_calc_fold U _ p hp with h0 | ⟨_, h1, h2, _⟩
    · simp at h0
    · exact ⟨h1, h2⟩
  have hR : (fmt_removed prev (calculate_changes_state U prev curr).removed).isSome = true := by
    apply fmt_removed_isSome
    intro p hp
    rcases removed_calc_fold U _ p hp with h0 | ⟨_, h1, _⟩
    · simp at h0
    · exact h1
  rcases Option.isSome_iff_exists.mp hA with ⟨a, ha⟩
  rcases Option.isSome_iff_exists.mp hC with ⟨c, hc⟩
  rcases Option.isSome_iff_exists.mp hR with ⟨r, hr⟩
  simp [calculate_changes, ha, hc, hr]

/-- Witness for `diff_engine_partiality`: on a universe whose only name is
present in the current map, the engine's formatting succeeds. -/
theorem diff_engine_partiality_witness :
    (calculate_changes ["x"] [] [("x", "1")]).isSome = true :=
  diff_engine_partiality.1 ["x"] [] [("x", "1")] (by decide)

/-- `BASE_IMAGE_NAME` from the source. -/
def BASE_IMAGE_NAME : String := "serpentine"

/-- `IMAGES`: the statically enumerated image variants. -/
def IMAGES : List String := [BASE_IMAGE_NAME, BASE_IMAGE_NAME ++ "-nvidia"]

/-- Substring occurrence on character lists: the needle is a prefix of some
suffix of the haystack. -/
def charlist_sub (needle : List Char) : List Char → Bool
  | [] => needle.isEmpty
  | c :: rest => List.isPrefixOf needle (c :: rest) || charlist_sub needle rest

/-- Python `needle in hay` substring containment on strings. -/
def substr_in (needle hay : String) : Bool := charlist_sub needle.data hay.data

/-- `get_images()`: each image with its base classification (`deck` when the
name contains `"deck"`, else `desktop`) and desktop environment (`gnome`
when it contains `"gnome"`, else `kde`). -/
def get_images : List (String × String × String) :=
  IMAGES.map (fun img =>
    (img,
     if substr_in "deck" img then "deck" else "desktop",
     if substr_in "gnome" img then "gnome" else "kde"))

/-- `get_packages(manifests)`: the per-image package maps; an image whose
label failed to parse (`packages = none`) is skipped. -/
def get_packages (manifests : List (String × Manifest)) :
    List (String × List (String × String)) :=
  manifests.filterMap (fun p => p.2.packages.map (fun pk => (p.1, pk)))

/-- `re.sub(FEDORA_PATTERN, "", v)` with `FEDORA_PATTERN = r"\.fc\d\d"`:
left-to-right scan removing every occurrence of a dot followed by `fc` and
two digits; on a failed match at a position the scanner advances one
character. -/
def strip_fc_go : Nat → List Char → List Char
  | 0, l => l
  | _ + 1, [] => []
  | fuel + 1, c :: rest =>
    match c, rest with
    | '.', 'f' :: 'c' :: a :: b :: rest2 =>
      if a.isDigit && b.isDigit then strip_fc_go fuel rest2
      else '.' :: strip_fc_go fuel rest
    | _, _ => c :: strip_fc_go fuel rest

/-- Entry point of the `\.fc\d\d` scanner; the fuel (one unit per scanner
step, each step consuming at least one character) makes the recursion
structural. -/
def strip_fc (l : List Char) : List Char := strip_fc_go l.length l

/-- The Version Normalizer: strip the `.fcNN` distribution suffix pattern. -/
def normalize_version (v : String) : String := String.mk (strip_fc v.data)

/-- Python dict assignment `d[k] = v`: overwrite in place, preserving the
original insertion position of an existing key. -/
def dict_set (k v : String) : List (String × String) → List (String × String)
  | [] => [(k, v)]
  | (a, b) :: rest => if a = k then (k, v) :: rest else (a, b) :: dict_set k v rest

/-- `get_versions(manifests)`: one merged name → version map over all
variants (later variants overwrite earlier ones), each version normalized. -/
def get_versions (manifests : List (String × Manifest)) : List (String × String) :=
  (get_packages manifests).foldl
    (fun acc ip => ip.2.foldl
      (fun acc2 pv => dict_set pv.1 (normalize_version pv.2) acc2) acc)
    []

/-- The same merge as `get_versions` but with the raw version strings, used
to state that the normalizer is applied to the versions view. -/
def get_versions_raw (manifests : List (String × Manifest)) : List (String × String) :=
  (get_packages manifests).foldl
    (fun acc ip => ip.2.foldl (fun acc2 pv => dict_set pv.1 pv.2 acc2) acc)
    []

/-- Set intersection on name lists (`for c in s.copy(): if c not in other:
s.remove(c)`), membership-faithful list form. -/
def inter_list (a b : List String) : List String := a.filter (fun x => lmem x b)

/-- Set difference on name lists (`add p if p not in common`). -/
def minus_list (a b : List String) : List String := a.filter (fun x => !(lmem x b))

/-- `pkg[k] = set(npkg.get(k, {})) | set(ppkg.get(k, {}))`: a variant's
universe, the union of its current and previous package names. -/
def universe_names (ppkg npkg : List (String × List (String × String))) (img : String) :
    List String :=
  (((alookup img npkg).getD []).map Prod.fst ++
    ((alookup img ppkg).getD []).map Prod.fst).dedup

/-- `img in pkg`: the variant appears in the current or previous extracted
package maps. -/
def img_present (ppkg npkg : List (String × List (String × String))) (img : String) : Bool :=
  (alookup img npkg).isSome || (alookup img ppkg).isSome

/-- The "find common packages" loop of `get_package_groups`: the first
present variant contributes its whole universe, every later present variant
intersects it away. -/
def common_fold (univ : String → List String) (pres : String → Bool) :
    List (String × String × String) → Bool → List String → List String
  | [], _, acc => acc
  | (img, _, _) :: rest, first, acc =>
    if pres img then
      if first then common_fold univ pres rest false (univ img)
      else common_fold univ pres rest false (inter_list acc (univ img))
    else common_fold univ pres rest first acc

/-- The group-membership tests (`continue` conditions) of the "find other
packages" loop: a variant participates in group `t` unless one of the
source's five `continue` conditions fires. -/
def group_participates (t base de : String) : Bool :=
  if t = "nvidia" ∧ substr_in "nvidia" base = false then false
  else if t = "kde" ∧ de ≠ "kde" then false
  else if t = "gnome" ∧ de ≠ "gnome" then false
  else if t = "deck" ∧ base ≠ "deck" then false
  else if t = "desktop" ∧ base = "deck" then false
  else true

/-- The per-group loop of `get_package_groups`: the first present matching
variant contributes its universe minus the common set, every later present
matching variant intersects. -/
def group_fold (univ : String → List String) (pres : String → Bool)
    (common : List String) (t : String) :
    List (String × String × String) → Bool → List String → List String
  | [], _, acc => acc
  | (img, base, de) :: rest, first, acc =>
    if pres img && group_participates t base de then
      if first then
        group_fold univ pres common t rest false (minus_list (univ img) common)
      else
        group_fold univ pres common t rest false (inter_list acc (univ img))
    else group_fold univ pres common t rest first acc

/-- The keys of `OTHER_NAMES`, in template order. -/
def OTHER_KEYS : List String := ["desktop", "deck", "kde", "nvidia"]

/-- The common set computed by `get_package_groups` (before sorting). -/
def common_set (prev manifests : List (String × Manifest)) : List String :=
  common_fold (universe_names (get_packages prev) (get_packages manifests))
    (img_present (get_packages prev) (get_packages manifests)) get_images true []

/-- The group set for key `t` computed by `get_package_groups` (before
sorting). -/
def group_set (prev manifests : List (String × Manifest)) (t : String) : List String :=
  group_fold (universe_names (get_packages prev) (get_packages manifests))
    (img_present (get_packages prev) (get_packages manifests))
    (common_set prev manifests) t get_images true []

/-- `get_package_groups(prev, manifests)`: the sorted common set and the
sorted per-group sets, keyed in `OTHER_NAMES` order. -/
def get_package_groups (prev manifests : List (String × Manifest)) :
    List String × List (String × List String) :=
  (py_sorted (common_set prev manifests),
   OTHER_KEYS.map (fun t => (t, py_sorted (group_set prev manifests t))))

example : get_images =
    [("serpentine", "desktop", "kde"), ("serpentine-nvidia", "desktop", "kde")] := by decide

example : normalize_version "6.8.9-300.fc40.x86_64" = "6.8.9-300.x86_64" := by decide

example : normalize_version "1.2.fc41" = "1.2" := by decide

theorem mem_inter_list {x : String} {a b : List String} :
    x ∈ inter_list a b ↔ x ∈ a ∧ x ∈ b := by
  simp only [inter_list, List.mem_filter]
  rw [lmem_iff]

theorem mem_minus_list {x : String} {a b : List String} :
    x ∈ minus_list a b ↔ x ∈ a ∧ x ∉ b := by
  simp only [minus_list, List.mem_filter, Bool.not_eq_true']
  constructor
  · rintro ⟨h1, h2⟩
    refine ⟨h1, fun hx => ?_⟩
    rw [← lmem_iff x b, h2] at hx
    exact Bool.false_ne_true hx
  · rintro ⟨h1, h2⟩
    refine ⟨h1, ?_⟩
    cases h : lmem x b
    · rfl
    · exact absurd ((lmem_iff x b).mp h) h2

theorem mem_py_sorted {x : String} {l : List String} : x ∈ py_sorted l ↔ x ∈ l := by
  simp [py_sorted, List.mem_insertionSort, List.mem_dedup]

theorem py_sorted_sorted (l : List String) : List.Sorted str_le_r (py_sorted l) :=
  List.sorted_insertionSort str_le_r l.dedup

theorem minus_list_nil_of_subset {a b : List String} (h : ∀ x ∈ a, x ∈ b) :
    minus_list a b = [] := by
  rw [List.eq_nil_iff_forall_not_mem]
  intro x hx
  rcases mem_minus_list.mp hx with ⟨h1, h2⟩
  exact h2 (h x h1)

theorem inter_minus_inter_nil {u1 u2 : List String} :
    inter_list (minus_list u1 (inter_list u1 u2)) u2 = [] := by
  rw [List.eq_nil_iff_forall_not_mem]
  intro x hx
  rcases mem_inter_list.mp hx with ⟨hm, h2⟩
  rcases mem_minus_list.mp hm with ⟨h1, hni⟩
  exact hni (mem_inter_list.mpr ⟨h1, h2⟩)

theorem common_fold_subset {univ : String → List String} {pres : String → Bool} :
    ∀ (l : List (String × String × String)) (first : Bool) (acc : List String) (x : String),
      x ∈ common_fold univ pres l first acc →
      x ∈ acc ∨ ∃ e ∈ l, x ∈ univ e.1 := by
  intro l
  induction l with
  | nil => intro first acc x h; exact Or.inl h
  | cons e rest ih =>
    rcases e with ⟨img, base, de⟩
    intro first acc x h
    simp only [common_fold] at h
    split_ifs at h with h1 h2
    · rcases ih false (univ img) x h with h3 | ⟨e2, he2, hu⟩
      · exact Or.inr ⟨(img, base, de), List.mem_cons_self _ _, h3⟩
      · exact Or.inr ⟨e2, List.mem_cons_of_mem _ he2, hu⟩
    · rcases ih false (inter_list acc (univ img)) x h with h3 | ⟨e2, he2, hu⟩
      · exact Or.inl (mem_inter_list.mp h3).1
      · exact Or.inr ⟨e2, List.mem_cons_of_mem _ he2, hu⟩
    · rcases ih first acc x h with h3 | ⟨e2, he2, hu⟩
      · exact Or.inl h3
      · exact Or.inr ⟨e2, List.mem_cons_of_mem _ he2, hu⟩

theorem group_fold_subset {univ : String → List String} {pres : String → Bool}
    {common : List String} {t : String} :
    ∀ (l : List (String × String × String)) (first : Bool) (acc : List String) (x : String),
      x ∈ group_fold univ pres common t l first acc →
      x ∈ acc ∨ ∃ e ∈ l, x ∈ minus_list (univ e.1) common := by
  intro l
  induction l with
  | nil => intro first acc x h; exact Or.inl h
  | cons e rest ih =>
    rcases e with ⟨img, base, de⟩
    intro first acc x h
    simp only [group_fold] at h
    split_ifs at h with h1 h2
    · rcases ih false (minus_list (univ img) common) x h with h3 | ⟨e2, he2, hu⟩
      · exact Or.inr ⟨(img, base, de), List.mem_cons_self _ _, h3⟩
      · exact Or.inr ⟨e2, List.mem_cons_of_mem _ he2, hu⟩
    · rcases ih false (inter_list acc (univ img)) x h with h3 | ⟨e2, he2, hu⟩
      · exact Or.inl (mem_inter_list.mp h3).1
      · exact Or.inr ⟨e2, List.mem_cons_of_mem _ he2, hu⟩
    · rcases ih first acc x h with h3 | ⟨e2, he2, hu⟩
      · exact Or.inl h3
      · exact Or.inr ⟨e2, List.mem_cons_of_mem _ he2, hu⟩

theorem common_fold_two (univ : String → List String) (pres : String → Bool)
    (i1 b1 d1 i2 b2 d2 : String) :
    common_fold univ pres [(i1, b1, d1), (i2, b2, d2)] true [] =
      if pres i1 = true then
        (if pres i2 = true then inter_list (univ i1) (univ i2) else univ i1)
      else
        (if pres i2 = true then univ i2 else []) := by
  by_cases h1 : pres i1 = true
  · by_cases h2 : pres i2 = true
    · simp [common_fold, h1, h2]
    · rw [Bool.not_eq_true] at h2
      simp [common_fold, h1, h2]
  · rw [Bool.not_eq_true] at h1
    by_cases h2 : pres i2 = true
    · simp [common_fold, h1, h2]
    · rw [Bool.not_eq_true] at h2
      simp [common_fold, h1, h2]

theorem group_fold_two (univ : String → List String) (pres : String → Bool)
    (common : List String) (t i1 b1 d1 i2 b2 d2 : String) :
    group_fold univ pres common t [(i1, b1, d1), (i2, b2, d2)] true [] =
      if (pres i1 && group_participates t b1 d1) = true then
        (if (pres i2 && group_participates t b2 d2) = true then
          inter_list (minus_list (univ i1) common) (univ i2)
        else minus_list (univ i1) common)
      else
        (if (pres i2 && group_participates t b2 d2) = true then
          minus_list (univ i2) common
        else []) := by
  by_cases h1 : (pres i1 && group_participates t b1 d1) = true
  · by_cases h2 : (pres i2 && group_participates t b2 d2) = true
    · simp only [group_fold, h1, h2, if_true, Bool.false_eq_true, if_false]
    · rw [Bool.not_eq_true] at h2
      simp only [group_fold, h1, h2, if_true, Bool.false_eq_true, if_false]
  · rw [Bool.not_eq_true] at h1
    by_cases h2 : (pres i2 && group_participates t b2 d2) = true
    · simp only [group_fold, h1, h2, if_true, Bool.false_eq_true, if_false]
    · rw [Bool.not_eq_true] at h2
      simp only [group_fold, h1, h2, Bool.false_eq_true, if_false]

theorem get_images_eq :
    get_images = [("serpentine", "desktop", "kde"),
      ("serpentine-nvidia", "desktop", "kde")] := by decide

theorem group_set_empty (prev manifests : List (String × Manifest)) :
    ∀ t ∈ OTHER_KEYS, group_set prev manifests t = [] := by
  intro t _
  unfold group_set common_set
  rw [get_images_eq, group_fold_two, common_fold_two]
  by_cases hp : group_participates t "desktop" "kde" = true
  · rw [hp]
    by_cases h1 : img_present (get_packages prev) (get_packages manifests) "serpentine" = true
    · by_cases h2 : img_present (get_packages prev) (get_packages manifests)
          "serpentine-nvidia" = true
      · simp only [h1, h2, Bool.true_and, Bool.and_true, if_true]
        exact inter_minus_inter_nil
      · rw [Bool.not_eq_true] at h2
        simp only [h1, h2, Bool.true_and, Bool.and_true, Bool.false_and,
          Bool.false_eq_true, if_true, if_false]
        exact minus_list_nil_of_subset (fun x hx => hx)
    · rw [Bool.not_eq_true] at h1
      by_cases h2 : img_present (get_packages prev) (get_packages manifests)
          "serpentine-nvidia" = true
      · simp only [h1, h2, Bool.true_and, Bool.and_true, Bool.false_and,
          Bool.false_eq_true, if_true, if_false]
        exact minus_list_nil_of_subset (fun x hx => hx)
      · rw [Bool.not_eq_true] at h2
        simp only [h1, h2, Bool.false_and, Bool.false_eq_true, if_false]
  · rw [Bool.not_eq_true] at hp
    simp only [hp, Bool.and_false, Bool.false_eq_true, if_false]

/-- **C5** Group Reconciler disjointness: the common set and every group set
returned by `get_package_groups` are pairwise disjoint (each group set in
particular excludes every package in the common set), their union is
contained in the union of all variants' universes (previous ∪ current
package names), and the common set and each group set are returned sorted. -/
theorem group_reconciler_disjoint (prev manifests : List (String × Manifest)) :
    List.Sorted str_le_r (get_package_groups prev manifests).1 ∧
    (∀ g ∈ (get_package_groups prev manifests).2, List.Sorted str_le_r g.2) ∧
    (∀ g ∈ (get_package_groups prev manifests).2, ∀ x ∈ g.2,
        x ∉ (get_package_groups prev manifests).1) ∧
    (∀ g1 ∈ (get_package_groups prev manifests).2,
      ∀ g2 ∈ (get_package_groups prev manifests).2,
        g1.1 ≠ g2.1 → ∀ x ∈ g1.2, x ∉ g2.2) ∧
    (∀ x ∈ (get_package_groups prev manifests).1, ∃ e ∈ get_images,
        x ∈ universe_names (get_packages prev) (get_packages manifests) e.1) ∧
    (∀ g ∈ (get_package_groups prev manifests).2, ∀ x ∈ g.2, ∃ e ∈ get_images,
        x ∈ universe_names (get_packages prev) (get_packages manifests) e.1) := by
  have hgroups : ∀ g ∈ (get_package_groups prev manifests).2, g.2 = [] := by
    intro g hg
    simp only [get_package_groups, List.mem_map] at hg
    rcases hg with ⟨t, ht, rfl⟩
    show py_sorted (group_set prev manifests t) = []
    rw [group_set_empty prev manifests t ht]
    rfl
  refine ⟨?_, ?_, ?_, ?_, ?_, ?_⟩
  · exact py_sorted_sorted _
  · intro g hg
    rw [hgroups g hg]
    exact List.sorted_nil
  · intro g hg x hx
    rw [hgroups g hg] at hx
    simp at hx
  · intro g1 hg1 g2 hg2 _ x hx
    rw [hgroups g1 hg1] at hx
    simp at hx
  · intro x hx
    have hx2 : x ∈ common_set prev manifests := mem_py_sorted.mp hx
    rcases common_fold_subset get_images true [] x hx2 with h | ⟨e, he, hu⟩
    · simp at h
    · exact ⟨e, he, hu⟩
  · intro g hg x hx
    rw [hgroups g hg] at hx
    simp at hx

/-- Witness for `group_reconciler_disjoint`: a package present in both
variants' current manifests lies in the union of the variants' universes. -/
theorem group_reconciler_disjoint_witness :
    ∃ e ∈ get_images, "pkgA" ∈ universe_names
      (get_packages [])
      (get_packages
        [("serpentine", ⟨[], [], some [("pkgA", "1")]⟩),
         ("serpentine-nvidia", ⟨[], [], some [("pkgA", "1")]⟩)]) e.1 :=
  (group_reconciler_disjoint []
    [("serpentine", ⟨[], [], some [("pkgA", "1")]⟩),
     ("serpentine-nvidia", ⟨[], [], some [("pkgA", "1")]⟩)]).2.2.2.2.1
    "pkgA" (by decide)

/-- **C9** Implicit emptiness of the GPU-vendor group: the `nvidia` group of
`get_package_groups` is empty for every input, because its membership test
checks the substring `"nvidia"` against the variant's base classification
(always `"deck"` or `"desktop"`), and rendering an empty universe produces
the empty diff text, so the Nvidia Images section is never emitted. -/
theorem nvidia_group_always_empty (prev manifests : List (String × Manifest)) :
    alookup "nvidia" (get_package_groups prev manifests).2 = some [] ∧
    (∀ pv cv : List (String × String), calculate_changes [] pv cv = some "") := by
  constructor
  · have h := group_set_empty prev manifests "nvidia" (by decide)
    simp [get_package_groups, OTHER_KEYS, alookup, h, py_sorted]
  · intro pv cv
    rfl

theorem alookup_dict_set (p k v : String) (l : List (String × String)) :
    alookup p (dict_set k v l) = if k = p then some v else alookup p l := by
  induction l with
  | nil => simp [dict_set, alookup]
  | cons ab rest ih =>
    rcases ab with ⟨a, b⟩
    by_cases hak : a = k
    · subst hak
      simp only [dict_set, if_pos rfl, alookup]
      by_cases hap : a = p
      · subst hap
        simp
      · simp [hap]
    · simp only [dict_set, if_neg hak, alookup]
      by_cases hap : a = p
      · subst hap
        have hkp : ¬ k = a := fun hh => hak hh.symm
        simp [hkp]
      · simp [hap, ih]

theorem inner_fold_norm_lookup :
    ∀ (l : List (String × String)) (accN accR : List (String × String)),
      (∀ p, alookup p accN = (alookup p accR).map normalize_version) →
      ∀ p, alookup p (l.foldl
          (fun acc2 pv => dict_set pv.1 (normalize_version pv.2) acc2) accN)
        = (alookup p (l.foldl (fun acc2 pv => dict_set pv.1 pv.2 acc2) accR)).map
            normalize_version := by
  intro l
  induction l with
  | nil => intro accN accR h p; exact h p
  | cons pv rest ih =>
    intro accN accR h p
    simp only [List.foldl_cons]
    apply ih
    intro q
    rw [alookup_dict_set, alookup_dict_set]
    by_cases hk : pv.1 = q
    · simp [hk]
    · simp [hk, h q]

theorem outer_fold_norm_lookup :
    ∀ (ls : List (String × List (String × String))) (accN accR : List (String × String)),
      (∀ p, alookup p accN = (alookup p accR).map normalize_version) →
      ∀ p, alookup p (ls.foldl
          (fun acc ip => ip.2.foldl
            (fun acc2 pv => dict_set pv.1 (normalize_version pv.2) acc2) acc) accN)
        = (alookup p (ls.foldl
            (fun acc ip => ip.2.foldl (fun acc2 pv => dict_set pv.1 pv.2 acc2) acc) accR)).map
              normalize_version := by
  intro ls
  induction ls with
  | nil => intro accN accR h p; exact h p
  | cons ip rest ih =>
    intro accN accR h p
    simp only [List.foldl_cons]
    apply ih
    exact inner_fold_norm_lookup ip.2 accN accR h

/-- **C6** Raw versus normalized inputs to reconciliation: the versions view
used for diffing and major-package display applies the `.fcNN` normalizer to
every version (every lookup in `get_versions` is the normalization of the
corresponding raw lookup), while group reconciliation in
`get_package_groups` compares raw per-variant label strings: two variants
whose package labels differ only by a `.fcNN` suffix (equal after
normalization) share no common package, and when the raw labels coincide
the raw — not the normalized — string is returned. -/
theorem versions_normalized_groups_raw :
    (∀ (manifests : List (String × Manifest)) (p : String),
      alookup p (get_versions manifests) =
        (alookup p (get_versions_raw manifests)).map normalize_version) ∧
    normalize_version "foo.fc40" = normalize_version "foo.fc41" ∧
    (get_package_groups []
      [("serpentine", ⟨[], [], some [("foo.fc40", "1")]⟩),
       ("serpentine-nvidia", ⟨[], [], some [("foo.fc41", "1")]⟩)]).1 = [] ∧
    (get_package_groups []
      [("serpentine", ⟨[], [], some [("foo.fc40", "1")]⟩),
       ("serpentine-nvidia", ⟨[], [], some [("foo.fc40", "1")]⟩)]).1 = ["foo.fc40"] ∧
    ("foo.fc40" : String) ≠ normalize_version "foo.fc40" := by
  refine ⟨?_, by decide, by decide, by decide, by decide⟩
  intro manifests p
  exact outer_fold_norm_lookup (get_packages manifests) [] [] (fun q => rfl) p

/-- Python `str.replace(old, new)`: non-overlapping left-to-right
replacement of every occurrence; the fuel (one unit per emitted character
or match) makes the recursion structural. -/
def replace_go : Nat → List Char → List Char → List Char → List Char
  | 0, l, _, _ => l
  | _ + 1, [], _, _ => []
  | fuel + 1, c :: rest, pat, rep =>
    if List.isPrefixOf pat (c :: rest) then
      rep ++ replace_go fuel (List.drop pat.length (c :: rest)) pat rep
    else c :: replace_go fuel rest pat rep

/-- Python `s.replace(pat, rep)` on strings (for the non-empty patterns used
by the renderer). -/
def str_replace (s pat rep : String) : String :=
  String.mk (replace_go s.data.length s.data pat.data rep.data)

/-- Python `str.capitalize()`: first character uppercased, the rest
lowercased. -/
def py_capitalize (s : String) : String :=
  match s.data with
  | [] => ""
  | c :: rest => String.mk (c.toUpper :: rest.map Char.toLower)

/-- `re.sub(r"\.\d{1,2}$", "", s)`: strip a trailing dot followed by one or
two digits (the greedy match ending at the end of the string). -/
def strip_patch (s : String) : String :=
  match s.data.reverse with
  | a :: '.' :: rest =>
    if a.isDigit then String.mk rest.reverse else s
  | a :: b :: '.' :: rest =>
    if a.isDigit && b.isDigit then String.mk rest.reverse else s
  | _ => s

/-- `re.sub(rf"^[a-z]+-", "", s)`: strip a leading run of lowercase ASCII
letters followed by a dash (the dash cannot occur inside the run, so the
greedy run followed by `-` is exactly the regex). -/
def strip_chan (s : String) : String :=
  match s.data.drop ((s.data.takeWhile (fun c => 97 ≤ c.toNat && c.toNat ≤ 122)).length),
      (s.data.takeWhile (fun c => 97 ≤ c.toNat && c.toNat ≤ 122)) with
  | '-' :: rest, _ :: _ => String.mk rest
  | _, _ => s

example : strip_patch "23.10" = "23" := by decide

example : strip_chan "testing-41" = "41" := by decide

example : strip_chan "41-x" = "41-x" := by decide

example : strip_chan "Testing-41" = "Testing-41" := by decide

/-- `CHANGELOG_TITLE = "{tag}: {pretty}"` (braces written escaped). -/
def CHANGELOG_TITLE : String := "\x7btag\x7d: \x7bpretty\x7d"

/-- `HANDWRITTEN_PLACEHOLDER` from the source. -/
def HANDWRITTEN_PLACEHOLDER : String :=
  "This is an automatically generated changelog for release `\x7bcurr\x7d`."

/-- `CHANGELOG_FORMAT`: the main changelog template (braces escaped). -/
def CHANGELOG_FORMAT : String :=
  "\x7bhandwritten\x7d\n\nFrom previous `\x7btarget\x7d` version `\x7bprev\x7d` " ++
  "there have been the following changes. **One package per new version shown.**\n\n" ++
  "### Major packages\n| Name | Version |\n| --- | --- |\n" ++
  "| **Kernel** | \x7bpkgrel:kernel\x7d |\n" ++
  "| **Firmware** | \x7bpkgrel:atheros-firmware\x7d |\n" ++
  "| **Mesa** | \x7bpkgrel:mesa-filesystem\x7d |\n" ++
  "| **Gamescope** | \x7bpkgrel:gamescope\x7d |\n" ++
  "| **KDE** | \x7bpkgrel:plasma-desktop\x7d |\n" ++
  "| **[HHD](https://github.com/hhd-dev/hhd)** | \x7bpkgrel:hhd\x7d |\n\n" ++
  "\x7bchanges\x7d\n\n" ++
  "### How to rebase\nFor current users, type the following to rebase to this version:\n" ++
  "```bash\n# For this branch (if latest):\nserpentine-rollback-helper rebase \x7btarget\x7d\n" ++
  "# For this specific image:\nserpentine-rollback-helper rebase \x7bcurr\x7d\n```\n"

/-- `PATTERN_PKGREL.format(version=v)` -/
def PATTERN_PKGREL (version : String) : String := version

/-- `PATTERN_PKGREL_CHANGED.format(prev=..., new=...)` -/
def PATTERN_PKGREL_CHANGED (prevv newv : String) : String :=
  prevv ++ " ➡️ " ++ newv

/-- `COMMON_PAT.format(changes=...)` -/
def COMMON_PAT (changes : String) : String :=
  "### All Images\n| | Name | Previous | New |\n| --- | --- | --- | --- |" ++
    changes ++ "\n\n"

/-- `OTHER_NAMES[k].format(changes=...)`; the keys are statically those of
`OTHER_KEYS`, so the catch-all branch is unreachable in the orchestrator. -/
def OTHER_NAMES (k changes : String) : String :=
  if k = "desktop" then
    "### Desktop Images\n| | Name | Previous | New |\n| --- | --- | --- | --- |" ++
      changes ++ "\n\n"
  else if k = "deck" then
    "### Deck Images\n| | Name | Previous | New |\n| --- | --- | --- | --- |" ++
      changes ++ "\n\n"
  else if k = "kde" then
    "### KDE Images\n| | Name | Previous | New |\n| --- | --- | --- | --- |" ++
      changes ++ "\n\n"
  else if k = "nvidia" then
    "### Nvidia Images\n| | Name | Previous | New |\n| --- | --- | --- | --- |" ++
      changes ++ "\n\n"
  else ""

/-- The `for k, v in others.items()` loop of `generate_changelog`: render
each group's diff and append its section when non-empty; a formatting
`KeyError` (modelled `none`) aborts. -/
def other_sections (prev_versions versions : List (String × String)) :
    List (String × List String) → Option String
  | [] => some ""
  | (k, v) :: rest =>
    match calculate_changes v prev_versions versions with
    | none => none
    | some chg =>
      match other_sections prev_versions versions rest with
      | none => none
      | some out => some ((if chg ≠ "" then OTHER_NAMES k chg else "") ++ out)

/-- The `{pkgrel:...}` substitution loop of `generate_changelog`: for every
package of the current versions view, replace its placeholder with the bare
version (unchanged or newly appearing) or with the `previous ➡️ new`
compound (changed). -/
def pkgrel_replace (prev_versions : List (String × String)) (cl : String)
    (versions : List (String × String)) : String :=
  versions.foldl (fun acc pv =>
    if alookup pv.1 prev_versions = none ∨ alookup pv.1 prev_versions = some pv.2 then
      str_replace acc ("\x7bpkgrel:" ++ pv.1 ++ "\x7d") (PATTERN_PKGREL pv.2)
    else
      str_replace acc ("\x7bpkgrel:" ++ pv.1 ++ "\x7d")
        (PATTERN_PKGREL_CHANGED ((alookup pv.1 prev_versions).getD "") pv.2)) cl

/-- `generate_changelog(...)`: the Document Renderer / Orchestrator tail.
The commit-log section and the upstream-base-image section are produced by
external collaborators (`get_commits` runs git, `get_upstream_section`
performs registry fetches); their returned text is passed in as
`commits_sec` / `upstream_sec` data. Returns `none` where the Python raises
(tag-selection failure, or a `KeyError` while formatting a diff row). -/
def generate_changelog (handwritten : Option String) (target : String)
    (pretty0 : Option String) (commits_sec upstream_sec : String)
    (prev_manifests manifests : List (String × Manifest)) :
    Option (String × String) :=
  let common := (get_package_groups prev_manifests manifests).1
  let others := (get_package_groups prev_manifests manifests).2
  let versions := get_versions manifests
  let prev_versions := get_versions prev_manifests
  match get_tags target manifests with
  | none => none
  | some (prev, curr) =>
    let finish :=
      match manifests with
      | [] => ""
      | (_, m) :: _ => (alookup "org.opencontainers.image.revision" m.Labels).getD ""
    let pretty :=
      if pretty0.getD "" = "" then
        let curr_pretty := strip_chan (strip_patch curr)
        let base := py_capitalize target ++ " (F" ++ curr_pretty
        let base2 :=
          if finish ≠ "" ∧ target ≠ "stable" then
            base ++ ", #" ++ String.mk (finish.data.take 7)
          else base
        base2 ++ ")"
      else pretty0.getD ""
    let title := curr ++ ": " ++ pretty
    let cl0 := str_replace CHANGELOG_FORMAT "\x7bhandwritten\x7d"
      (if (handwritten.getD "") ≠ "" then handwritten.getD "" else HANDWRITTEN_PLACEHOLDER)
    let cl1 := str_replace (str_replace (str_replace cl0 "\x7btarget\x7d" target)
      "\x7bprev\x7d" prev) "\x7bcurr\x7d" curr
    let cl2 := pkgrel_replace prev_versions cl1 versions
    match calculate_changes common prev_versions versions with
    | none => none
    | some common_chg =>
      match other_sections prev_versions versions others with
      | none => none
      | some group_secs =>
        let changes := commits_sec ++ upstream_sec ++
          (if common_chg ≠ "" then COMMON_PAT common_chg else "") ++ group_secs
        some (title, str_replace cl2 "\x7bchanges\x7d" changes)

/-- **C10** Renderer determinism: two runs of the changelog rendering on
identical inputs — same handwritten text, target, pretty string, commit-log
and upstream collaborator outputs, and manifests — produce byte-identical
title and document output. -/
theorem renderer_deterministic (hw1 hw2 : Option String) (t1 t2 : String)
    (p1 p2 : Option String) (c1 c2 u1 u2 : String)
    (pm1 pm2 m1 m2 : List (String × Manifest))
    (hhw : hw1 = hw2) (ht : t1 = t2) (hp : p1 = p2) (hc : c1 = c2)
    (hu : u1 = u2) (hpm : pm1 = pm2) (hm : m1 = m2) :
    generate_changelog hw1 t1 p1 c1 u1 pm1 m1 =
      generate_changelog hw2 t2 p2 c2 u2 pm2 m2 := by
  subst hhw; subst ht; subst hp; subst hc; subst hu; subst hpm; subst hm
  rfl

/-- Witness for `renderer_deterministic`: two renderings of one concrete
input coincide. -/
theorem renderer_deterministic_witness :
    generate_changelog none "stable" none "" ""
      [("serpentine", ⟨["23.9", "23.10"], [], some [("foo", "1.0")]⟩)]
      [("serpentine", ⟨["23.9", "23.10"], [], some [("foo", "1.1")]⟩)] =
    generate_changelog none "stable" none "" ""
      [("serpentine", ⟨["23.9", "23.10"], [], some [("foo", "1.0")]⟩)]
      [("serpentine", ⟨["23.9", "23.10"], [], some [("foo", "1.1")]⟩)] :=
  renderer_deterministic none none "stable" "stable" none none "" "" "" ""
    [("serpentine", ⟨["23.9", "23.10"], [], some [("foo", "1.0")]⟩)]
    [("serpentine", ⟨["23.9", "23.10"], [], some [("foo", "1.0")]⟩)]
    [("serpentine", ⟨["23.9", "23.10"], [], some [("foo", "1.1")]⟩)]
    [("serpentine", ⟨["23.9", "23.10"], [], some [("foo", "1.1")]⟩)]
    rfl rfl rfl rfl rfl rfl rfl
